import Mathlib

/-!
Verification of the detection-to-track pipeline of the
Real_Time_Object_Tracking repository (src/Streamlit_App.py and the
Centroid Tracker it drives).

The Centroid Tracker itself (class `EuclideanDistTracker`, imported by
`Streamlit_App.py` from the module `tracker`) is not part of the sources
available here, so it is modelled from the specification, section 4.4.
Everything else is embedded directly from `src/Streamlit_App.py`.
-/

/-- A detection / bounding box `{x, y, w, h}` in ROI-local integer pixel
coordinates (spec section 3). -/
structure Box where
  x : Int
  y : Int
  w : Int
  h : Int
deriving DecidableEq, Repr

/-- A point with real-valued (here: exact rational) pixel coordinates. -/
abbrev Coord : Type := ℚ × ℚ

/-- Modelled from the spec: a Track of the Centroid Tracker's identity
table, `{id, centroid, lastBoundingBox}` (spec section 3); the id is the
table key, the remaining fields live here. -/
structure Track where
  centroid : Coord
  lastBoundingBox : Box
deriving DecidableEq, Repr

/-- Modelled from the spec: the Centroid Tracker state — identity table
`T : id -> Track` kept as an association list in a deterministic
(insertion) order, and the next-id counter `N` (spec section 4.4).  The
class `EuclideanDistTracker` holding this state is missing from src/. -/
structure TrackerState where
  table : List (Nat × Track)
  nextId : Nat
deriving DecidableEq, Repr

/-- Modelled from the spec: the centroid of a detection,
`c = (d.x + d.w/2, d.y + d.h/2)` (spec section 4.4 step 1a). -/
def centroid (d : Box) : Coord :=
  ((d.x : ℚ) + (d.w : ℚ) / 2, (d.y : ℚ) + (d.h : ℚ) / 2)

/-- Squared Euclidean distance between two points, kept in ℚ so it is
exactly computable. -/
def sqDist (a b : Coord) : ℚ :=
  (a.1 - b.1) ^ 2 + (a.2 - b.2) ^ 2

/-- The tracker's match distance threshold, default 25 pixels
(spec sections 4.4 and 6). -/
def matchDistanceThreshold : ℚ := 25

/-- Modelled from the spec: a detection centroid `c` matches a stored
track centroid `t` when the Euclidean distance is strictly below the
threshold (spec section 4.4 step 1c); stated on squared distances, which
is equivalent since both sides are nonnegative. -/
def withinThreshold (c t : Coord) : Bool :=
  decide (sqDist c t < matchDistanceThreshold ^ 2)

/-- Modelled from the spec: scan the identity table in its deterministic
order and return the id of the first track whose stored centroid is
within the threshold of `c` (spec section 4.4 steps 1b-1c). -/
def findMatch (table : List (Nat × Track)) (c : Coord) : Option Nat :=
  (table.find? (fun e => withinThreshold c e.2.centroid)).map Prod.fst

/-- Modelled from the spec: overwrite the table entry with key `k` with
the freshly matched track data (spec section 4.4 step 1c). -/
def updateTrack (table : List (Nat × Track)) (k : Nat) (tr : Track) :
    List (Nat × Track) :=
  table.map (fun e => if e.1 = k then (k, tr) else e)

/-- Modelled from the spec: process one detection — match-and-mutate or
create a fresh track (spec section 4.4 steps 1a-1d).  Returns the new
state and the emitted `{x,y,w,h,id}` element. -/
def step (s : TrackerState) (d : Box) : TrackerState × (Box × Nat) :=
  match findMatch s.table (centroid d) with
  | some k =>
      (⟨updateTrack s.table k ⟨centroid d, d⟩, s.nextId⟩, (d, k))
  | none =>
      (⟨s.table ++ [(s.nextId, ⟨centroid d, d⟩)], s.nextId + 1⟩, (d, s.nextId))

/-- Modelled from the spec: process all detections in input order,
mutating the table immediately at each step (spec section 4.4 step 1). -/
def processAll : TrackerState → List Box → TrackerState × List (Box × Nat)
  | s, [] => (s, [])
  | s, d :: ds =>
      let p := step s d
      let q := processAll p.1 ds
      (q.1, p.2 :: q.2)

/-- Modelled from the spec: keep only the table entries whose id was
emitted this frame (spec section 4.4 step 2). -/
def prune (table : List (Nat × Track)) (ids : List Nat) : List (Nat × Track) :=
  table.filter (fun e => ids.contains e.1)

/-- Modelled from the spec: one `update` call of the Centroid Tracker —
process every detection, then replace the table with only the tracks
updated this frame, and return the emitted sequence in input order
(spec section 4.4). -/
def update (s : TrackerState) (ds : List Box) :
    TrackerState × List (Box × Nat) :=
  let p := processAll s ds
  (⟨prune p.1.table (p.2.map Prod.snd), p.1.nextId⟩, p.2)

/-- The ids currently present in an identity table, in table order. -/
def keys (t : List (Nat × Track)) : List Nat := t.map Prod.fst

/-- The tracker-state invariant: every id in the table is below the
next-id counter, and table ids are pairwise distinct.  It holds for the
initial state `⟨[], 0⟩` and is preserved by `update`. -/
def TrackerInv (s : TrackerState) : Prop :=
  (∀ k ∈ keys s.table, k < s.nextId) ∧ (keys s.table).Nodup

theorem keys_append (t u : List (Nat × Track)) :
    keys (t ++ u) = keys t ++ keys u := by
  simp [keys]

theorem keys_updateTrack (t : List (Nat × Track)) (k : Nat) (tr : Track) :
    keys (updateTrack t k tr) = keys t := by
  induction t with
  | nil => rfl
  | cons e es ih =>
      by_cases h : e.1 = k <;>
        simp [updateTrack, keys, h] at ih ⊢ <;> exact ih

theorem findMatch_mem {t : List (Nat × Track)} {c : Coord} {k : Nat}
    (h : findMatch t c = some k) : k ∈ keys t := by
  unfold findMatch at h
  rcases hf : t.find? (fun e => withinThreshold c e.2.centroid) with _ | e
  · rw [hf] at h; simp at h
  · rw [hf] at h
    simp at h
    subst h
    exact List.mem_map_of_mem Prod.fst (List.mem_of_find?_eq_some hf)

theorem step_nextId_le (s : TrackerState) (d : Box) :
    s.nextId ≤ (step s d).1.nextId := by
  unfold step
  rcases findMatch s.table (centroid d) with _ | k <;> simp

theorem step_keys_cases (s : TrackerState) (d : Box) :
    keys (step s d).1.table = keys s.table ∨
      keys (step s d).1.table = keys s.table ++ [s.nextId] := by
  unfold step
  rcases findMatch s.table (centroid d) with _ | k
  · right; simp [keys_append, keys]
  · left; simp [keys_updateTrack]

theorem step_keys_sub (s : TrackerState) (d : Box) :
    keys s.table ⊆ keys (step s d).1.table := by
  rcases step_keys_cases s d with h | h <;> rw [h]
  · exact fun a ha => ha
  · exact fun a ha => List.mem_append_left _ ha

theorem step_emit_box (s : TrackerState) (d : Box) : (step s d).2.1 = d := by
  unfold step
  rcases findMatch s.table (centroid d) with _ | k <;> simp

theorem step_emit_mem (s : TrackerState) (d : Box) :
    (step s d).2.2 ∈ keys (step s d).1.table := by
  unfold step
  rcases h : findMatch s.table (centroid d) with _ | k
  · simp [keys_append, keys]
  · simpa [keys_updateTrack] using findMatch_mem h

theorem step_emit_old_or_new (s : TrackerState) (d : Box) :
    (step s d).2.2 ∈ keys s.table ∨ (step s d).2.2 = s.nextId := by
  unfold step
  rcases h : findMatch s.table (centroid d) with _ | k
  · right; simp
  · left; simpa using findMatch_mem h

theorem step_inv {s : TrackerState} (d : Box) (h : TrackerInv s) :
    TrackerInv (step s d).1 := by
  obtain ⟨hlt, hnd⟩ := h
  rcases hm : findMatch s.table (centroid d) with _ | k
  · constructor
    · intro k hk
      simp only [step, hm, keys_append] at hk ⊢
      rcases List.mem_append.mp hk with hk | hk
      · exact Nat.lt_succ_of_lt (hlt k hk)
      · simp [keys] at hk
        subst hk
        exact Nat.lt_succ_self _
    · simp only [step, hm, keys_append]
      refine List.Nodup.append hnd (by simp [keys]) ?_
      intro a ha hb
      simp [keys] at hb
      subst hb
      exact absurd (hlt _ ha) (lt_irrefl _)
  · constructor
    · intro j hj
      simp only [step, hm, keys_updateTrack] at hj ⊢
      exact hlt j hj
    · simp only [step, hm, keys_updateTrack]
      exact hnd

theorem processAll_nextId_le (ds : List Box) :
    ∀ s : TrackerState, s.nextId ≤ (processAll s ds).1.nextId := by
  induction ds with
  | nil => intro s; exact le_refl _
  | cons d ds ih =>
      intro s
      exact le_trans (step_nextId_le s d) (ih (step s d).1)

theorem processAll_keys_sub (ds : List Box) :
    ∀ s : TrackerState, keys s.table ⊆ keys (processAll s ds).1.table := by
  induction ds with
  | nil => intro s; exact fun a ha => ha
  | cons d ds ih =>
      intro s
      exact fun a ha => ih (step s d).1 (step_keys_sub s d ha)

theorem processAll_inv (ds : List Box) :
    ∀ s : TrackerState, TrackerInv s → TrackerInv (processAll s ds).1 := by
  induction ds with
  | nil => intro s hs; exact hs
  | cons d ds ih =>
      intro s hs
      exact ih (step s d).1 (step_inv d hs)

theorem processAll_map_fst (ds : List Box) :
    ∀ s : TrackerState, (processAll s ds).2.map Prod.fst = ds := by
  induction ds with
  | nil => intro s; rfl
  | cons d ds ih =>
      intro s
      simp only [processAll, List.map_cons, ih (step s d).1, step_emit_box]

theorem processAll_emit_mem (ds : List Box) :
    ∀ s : TrackerState, ∀ o ∈ (processAll s ds).2,
      o.2 ∈ keys (processAll s ds).1.table := by
  induction ds with
  | nil => intro s o ho; simp [processAll] at ho
  | cons d ds ih =>
      intro s o ho
      simp only [processAll, List.mem_cons] at ho
      rcases ho with ho | ho
      · subst ho
        exact processAll_keys_sub ds (step s d).1 (step_emit_mem s d)
      · exact ih (step s d).1 o ho

theorem processAll_emit_old_or_new (ds : List Box) :
    ∀ s : TrackerState, ∀ o ∈ (processAll s ds).2,
      o.2 ∈ keys s.table ∨ s.nextId ≤ o.2 := by
  induction ds with
  | nil => intro s o ho; simp [processAll] at ho
  | cons d ds ih =>
      intro s o ho
      simp only [processAll, List.mem_cons] at ho
      rcases ho with ho | ho
      · subst ho
        rcases step_emit_old_or_new s d with h | h
        · exact Or.inl h
        · exact Or.inr (le_of_eq h.symm)
      · rcases ih (step s d).1 o ho with h | h
        · rcases step_keys_cases s d with hk | hk
          · exact Or.inl (hk ▸ h)
          · rw [hk, List.mem_append] at h
            rcases h with h | h
            · exact Or.inl h
            · simp at h
              exact Or.inr (le_of_eq h.symm)
        · exact Or.inr (le_trans (step_nextId_le s d) h)

theorem processAll_emit_lt (ds : List Box) (s : TrackerState)
    (hs : TrackerInv s) :
    ∀ o ∈ (processAll s ds).2, o.2 < (processAll s ds).1.nextId := by
  intro o ho
  exact (processAll_inv ds s hs).1 o.2 (processAll_emit_mem ds s o ho)

theorem processAll_interval (ds : List Box) :
    ∀ s : TrackerState, TrackerInv s →
      ∀ i, s.nextId ≤ i → i < (processAll s ds).1.nextId →
        i ∈ (processAll s ds).2.map Prod.snd := by
  induction ds with
  | nil =>
      intro s _ i hle hlt
      exact absurd (lt_of_le_of_lt hle hlt) (lt_irrefl _)
  | cons d ds ih =>
      intro s hs i hle hlt
      simp only [processAll, List.map_cons, List.mem_cons]
      rcases hm : findMatch s.table (centroid d) with _ | k
      · -- creation: the emitted id is s.nextId, counter moves to s.nextId + 1
        have hstep : step s d =
            (⟨s.table ++ [(s.nextId, ⟨centroid d, d⟩)], s.nextId + 1⟩,
              (d, s.nextId)) := by
          simp [step, hm]
        by_cases hi : i = s.nextId
        · left
          rw [hstep]
          exact hi
        · right
          have h1 : (step s d).1.nextId ≤ i := by
            rw [hstep]
            exact Nat.succ_le_of_lt (lt_of_le_of_ne hle (Ne.symm hi))
          have h2 : i < (processAll (step s d).1 ds).1.nextId := by
            simpa [processAll] using hlt
          simpa [processAll] using
            ih (step s d).1 (step_inv d hs) i h1 h2
      · -- match: counter unchanged
        have hstep : step s d =
            (⟨updateTrack s.table k ⟨centroid d, d⟩, s.nextId⟩, (d, k)) := by
          simp [step, hm]
        right
        have h1 : (step s d).1.nextId ≤ i := by rw [hstep]; exact hle
        have h2 : i < (processAll (step s d).1 ds).1.nextId := by
          simpa [processAll] using hlt
        simpa [processAll] using
          ih (step s d).1 (step_inv d hs) i h1 h2

theorem keys_prune (t : List (Nat × Track)) (ids : List Nat) :
    keys (prune t ids) = (keys t).filter (fun k => ids.contains k) := by
  simp only [keys, prune, List.filter_map]
  rfl

theorem mem_keys_prune (t : List (Nat × Track)) (ids : List Nat) (i : Nat) :
    i ∈ keys (prune t ids) ↔ i ∈ keys t ∧ i ∈ ids := by
  rw [keys_prune, List.mem_filter]
  simp

theorem nodup_keys_prune (t : List (Nat × Track)) (ids : List Nat)
    (h : (keys t).Nodup) : (keys (prune t ids)).Nodup := by
  rw [keys_prune]
  exact h.filter _

theorem update_nil (s : TrackerState) :
    update s [] = (⟨[], s.nextId⟩, []) := by
  simp [update, processAll, prune, List.filter]

theorem withinThreshold_iff_dist (c t : Coord) :
    withinThreshold c t = true ↔
      Real.sqrt ((sqDist c t : ℚ) : ℝ) < ((matchDistanceThreshold : ℚ) : ℝ) := by
  have h25 : (0 : ℝ) < ((matchDistanceThreshold : ℚ) : ℝ) := by
    norm_num [matchDistanceThreshold]
  rw [withinThreshold, decide_eq_true_eq, Real.sqrt_lt' h25]
  constructor <;> intro h <;> exact_mod_cast h

/-- C1: after `update` returns, the identity table contains exactly one
entry per id present in the returned sequence and no others (ids in the
table are pairwise distinct and an id is in the table iff it was emitted
this frame); in particular `update` on the empty detection sequence
returns `[]` and empties the table, for any prior state. -/
theorem pruning_correct (s : TrackerState) (ds : List Box)
    (h : TrackerInv s) :
    (keys (update s ds).1.table).Nodup ∧
    (∀ i, i ∈ keys (update s ds).1.table ↔
        i ∈ (update s ds).2.map Prod.snd) ∧
    (∀ s0 : TrackerState, (update s0 []).2 = [] ∧ (update s0 []).1.table = []) := by
  refine ⟨?_, ?_, ?_⟩
  · exact nodup_keys_prune _ _ (processAll_inv ds s h).2
  · intro i
    show i ∈ keys (prune (processAll s ds).1.table
        ((processAll s ds).2.map Prod.snd)) ↔ _
    rw [mem_keys_prune]
    constructor
    · rintro ⟨_, h2⟩
      exact h2
    · intro hi
      refine ⟨?_, hi⟩
      obtain ⟨o, ho, rfl⟩ := List.mem_map.mp hi
      exact processAll_emit_mem ds s o ho
  · intro s0
    rw [update_nil]
    exact ⟨rfl, rfl⟩

/-- Witness for C1 at the initial tracker state and one detection. -/
theorem pruning_correct_witness :
    TrackerInv ⟨[], 0⟩ ∧
    ((keys (update ⟨[], 0⟩ [⟨10, 10, 20, 20⟩]).1.table).Nodup ∧
     (∀ i, i ∈ keys (update ⟨[], 0⟩ [⟨10, 10, 20, 20⟩]).1.table ↔
        i ∈ (update ⟨[], 0⟩ [⟨10, 10, 20, 20⟩]).2.map Prod.snd) ∧
     (∀ s0 : TrackerState, (update s0 []).2 = [] ∧ (update s0 []).1.table = [])) :=
  ⟨⟨by simp [keys], by simp [keys]⟩,
    pruning_correct ⟨[], 0⟩ [⟨10, 10, 20, 20⟩] ⟨by simp [keys], by simp [keys]⟩⟩

/-- C2: within one tracker instance's lifetime the next-id counter never
decreases and the ids issued in a frame are exactly the interval from
the old counter to the new one (one increment per created track); every
emitted id below the old counter is an already-active table id (no
retired id is ever reassigned); the invariant — distinct table ids, all
below the counter — is preserved; and after an empty frame (which prunes
every track) a detection receives the fresh id `s.nextId`, which is
never an id that was in the table before. -/
theorem identity_counter_monotone (s : TrackerState) (ds : List Box)
    (h : TrackerInv s) :
    s.nextId ≤ (update s ds).1.nextId ∧
    (∀ i, (s.nextId ≤ i ∧ i < (update s ds).1.nextId) ↔
        (i ∈ (update s ds).2.map Prod.snd ∧ s.nextId ≤ i)) ∧
    (∀ i ∈ (update s ds).2.map Prod.snd,
        i < (update s ds).1.nextId ∧ (i < s.nextId → i ∈ keys s.table)) ∧
    TrackerInv (update s ds).1 ∧
    (∀ d : Box, (update (update s []).1 [d]).2 = [(d, s.nextId)] ∧
        s.nextId ∉ keys s.table) := by
  have hfin := processAll_inv ds s h
  refine ⟨processAll_nextId_le ds s, ?_, ?_, ?_, ?_⟩
  · intro i
    constructor
    · rintro ⟨hle, hlt⟩
      exact ⟨processAll_interval ds s h i hle hlt, hle⟩
    · rintro ⟨hi, hle⟩
      obtain ⟨o, ho, rfl⟩ := List.mem_map.mp hi
      exact ⟨hle, processAll_emit_lt ds s h o ho⟩
  · intro i hi
    obtain ⟨o, ho, rfl⟩ := List.mem_map.mp hi
    refine ⟨processAll_emit_lt ds s h o ho, ?_⟩
    intro hlt
    rcases processAll_emit_old_or_new ds s o ho with hm | hm
    · exact hm
    · exact absurd hlt (not_lt_of_le hm)
  · constructor
    · intro k hk
      exact hfin.1 k ((mem_keys_prune _ _ k).mp hk).1
    · exact nodup_keys_prune _ _ hfin.2
  · intro d
    constructor
    · have he : (update s []).1 = ⟨[], s.nextId⟩ := congrArg Prod.fst (update_nil s)
      rw [he]
      simp [update, processAll, step, findMatch, prune, List.find?]
    · intro hk
      exact absurd (h.1 _ hk) (lt_irrefl _)

/-- Witness for C2 at the initial tracker state and one detection. -/
theorem identity_counter_monotone_witness :
    TrackerInv ⟨[], 0⟩ ∧
    ((0 : Nat) ≤ (update ⟨[], 0⟩ [⟨10, 10, 20, 20⟩]).1.nextId ∧
     (∀ i, ((0 : Nat) ≤ i ∧ i < (update ⟨[], 0⟩ [⟨10, 10, 20, 20⟩]).1.nextId) ↔
        (i ∈ (update ⟨[], 0⟩ [⟨10, 10, 20, 20⟩]).2.map Prod.snd ∧ (0 : Nat) ≤ i)) ∧
     (∀ i ∈ (update ⟨[], 0⟩ [⟨10, 10, 20, 20⟩]).2.map Prod.snd,
        i < (update ⟨[], 0⟩ [⟨10, 10, 20, 20⟩]).1.nextId ∧
          (i < (0 : Nat) → i ∈ keys (TrackerState.mk [] 0).table)) ∧
     TrackerInv (update ⟨[], 0⟩ [⟨10, 10, 20, 20⟩]).1 ∧
     (∀ d : Box, (update (update ⟨[], 0⟩ []).1 [d]).2 = [(d, 0)] ∧
        (0 : Nat) ∉ keys (TrackerState.mk [] 0).table)) :=
  ⟨⟨by simp [keys], by simp [keys]⟩,
    identity_counter_monotone ⟨[], 0⟩ [⟨10, 10, 20, 20⟩]
      ⟨by simp [keys], by simp [keys]⟩⟩

/-- C3: a detection matches a track exactly when the Euclidean distance
between its centroid and the track's stored centroid is strictly below
the 25-pixel threshold; at a single-track table the scan returns the
track precisely under the same condition; a centroid at distance exactly
25 does not match, one at distance 24.5 does. -/
theorem threshold_boundary :
    (∀ c t : Coord, withinThreshold c t = true ↔
        Real.sqrt ((sqDist c t : ℚ) : ℝ) < ((matchDistanceThreshold : ℚ) : ℝ)) ∧
    (∀ (k : Nat) (tr : Track) (c : Coord),
        findMatch [(k, tr)] c = some k ↔
          Real.sqrt ((sqDist c tr.centroid : ℚ) : ℝ) <
            ((matchDistanceThreshold : ℚ) : ℝ)) ∧
    withinThreshold (0, 0) (25, 0) = false ∧
    withinThreshold (0, 0) (49 / 2, 0) = true := by
  refine ⟨withinThreshold_iff_dist, ?_, ?_, ?_⟩
  · intro k tr c
    by_cases hb : withinThreshold c tr.centroid = true
    · simp only [findMatch, List.find?, hb, Option.map_some]
      simp [← withinThreshold_iff_dist, hb]
    · simp only [findMatch, List.find?, Bool.not_eq_true] at hb ⊢
      rw [hb]
      simp only [← withinThreshold_iff_dist]
      constructor
      · intro hc
        exact absurd hc (by simp)
      · intro hc
        rw [hc] at hb
        cases hb
  · norm_num [withinThreshold, sqDist, matchDistanceThreshold]
  · norm_num [withinThreshold, sqDist, matchDistanceThreshold]

/-- C4 counterexample: one existing track with centroid `(0,0)` and two
identical detections, both within threshold of that track; the second
detection re-matches the same (already-updated) track and the frame
emits the id 0 twice — a duplicate id, contradicting the claim. -/
theorem greedy_duplicate_id :
    withinThreshold (centroid ⟨-1, -1, 2, 2⟩) (0, 0) = true ∧
    (update ⟨[(0, ⟨(0, 0), ⟨-1, -1, 2, 2⟩⟩)], 1⟩
        [⟨-1, -1, 2, 2⟩, ⟨-1, -1, 2, 2⟩]).2.map Prod.snd = [0, 0] ∧
    ¬ ((update ⟨[(0, ⟨(0, 0), ⟨-1, -1, 2, 2⟩⟩)], 1⟩
        [⟨-1, -1, 2, 2⟩, ⟨-1, -1, 2, 2⟩]).2.map Prod.snd).Nodup := by
  have h2 : (update ⟨[(0, ⟨(0, 0), ⟨-1, -1, 2, 2⟩⟩)], 1⟩
      [⟨-1, -1, 2, 2⟩, ⟨-1, -1, 2, 2⟩]).2.map Prod.snd = [0, 0] := by
    norm_num [update, processAll, step, findMatch, withinThreshold, sqDist,
      matchDistanceThreshold, centroid, prune, updateTrack, List.find?]
  refine ⟨?_, h2, ?_⟩
  · norm_num [withinThreshold, sqDist, matchDistanceThreshold, centroid]
  · rw [h2]
    simp

/-- C4 (amended): matching is greedy first-match with immediate table
mutation; for a table holding one track and two detections both within
threshold of it, the first detection matches the track and overwrites
its centroid, and the second detection is never dropped: it re-matches
the same track (emitting the same id again) when within threshold of the
already-updated centroid, and otherwise creates the fresh id. -/
theorem greedy_second_detection (k n : Nat) (tr : Track) (d1 d2 : Box)
    (h1 : withinThreshold (centroid d1) tr.centroid = true)
    (h2 : withinThreshold (centroid d2) tr.centroid = true) :
    (update ⟨[(k, tr)], n⟩ [d1, d2]).2 =
      [(d1, k),
       (d2, if withinThreshold (centroid d2) (centroid d1) = true
            then k else n)] := by
  by_cases hb : withinThreshold (centroid d2) (centroid d1) = true
  · simp [update, processAll, step, findMatch, List.find?, h1, hb, updateTrack]
  · simp only [Bool.not_eq_true] at hb
    simp [update, processAll, step, findMatch, List.find?, h1, hb, updateTrack]

/-- Witness for C4 (amended): track at `(0,0)`, first detection centred
at `(0,0)`, second at `(10,0)` — both within 25 of the track; the second
re-matches the updated track. -/
theorem greedy_second_detection_witness :
    withinThreshold (centroid ⟨-1, -1, 2, 2⟩)
        (Track.mk (0, 0) ⟨-1, -1, 2, 2⟩).centroid = true ∧
    withinThreshold (centroid ⟨9, -1, 2, 2⟩)
        (Track.mk (0, 0) ⟨-1, -1, 2, 2⟩).centroid = true ∧
    (update ⟨[(0, ⟨(0, 0), ⟨-1, -1, 2, 2⟩⟩)], 5⟩
        [⟨-1, -1, 2, 2⟩, ⟨9, -1, 2, 2⟩]).2 =
      [(⟨-1, -1, 2, 2⟩, 0),
       (⟨9, -1, 2, 2⟩,
        if withinThreshold (centroid ⟨9, -1, 2, 2⟩)
            (centroid ⟨-1, -1, 2, 2⟩) = true then 0 else 5)] :=
  ⟨by norm_num [withinThreshold, sqDist, matchDistanceThreshold, centroid],
   by norm_num [withinThreshold, sqDist, matchDistanceThreshold, centroid],
   greedy_second_detection 0 5 ⟨(0, 0), ⟨-1, -1, 2, 2⟩⟩ ⟨-1, -1, 2, 2⟩ ⟨9, -1, 2, 2⟩
     (by norm_num [withinThreshold, sqDist, matchDistanceThreshold, centroid])
     (by norm_num [withinThreshold, sqDist, matchDistanceThreshold, centroid])⟩

/-- C5: `update` returns exactly one output per input detection, in the
same order, the i-th output being the i-th input box paired with the id
assigned to it. -/
theorem order_preserved (s : TrackerState) (ds : List Box) :
    (update s ds).2.map Prod.fst = ds ∧
    (update s ds).2.length = ds.length := by
  have h : (update s ds).2.map Prod.fst = ds := processAll_map_fst ds s
  refine ⟨h, ?_⟩
  have := congrArg List.length h
  simpa using this

/-- A contour as delivered by the external contour extraction
(`cv2.findContours`), reduced to the two attributes the source reads
from it: its enclosed area (`cv2.contourArea`, a nonnegative real,
modelled in ℚ) and its axis-aligned bounding rectangle
(`cv2.boundingRect`). -/
structure Contour where
  area : ℚ
  rect : Box
deriving DecidableEq, Repr

/-- The detection-extraction loop of src/Streamlit_App.py lines 154-159:
start from an empty list and, for each contour in discovery order,
append its bounding rectangle when its area exceeds 100. -/
def extractDetections (cs : List Contour) : List Box :=
  cs.foldl (fun acc c => if 100 < c.area then acc ++ [c.rect] else acc) []

theorem extractDetections_foldl (cs : List Contour) :
    ∀ acc : List Box,
      cs.foldl (fun acc c => if 100 < c.area then acc ++ [c.rect] else acc) acc =
        acc ++ (cs.filter (fun c => decide (100 < c.area))).map Contour.rect := by
  induction cs with
  | nil => intro acc; simp
  | cons c cs ih =>
      intro acc
      by_cases h : (100 : ℚ) < c.area
      · simp [List.foldl_cons, List.filter_cons, h, ih]
      · simp [List.foldl_cons, List.filter_cons, h, ih]

/-- C6: the Detection Extractor emits exactly one detection — the
contour's bounding rectangle — per contour of area strictly greater
than 100, in contour-discovery order; contours of area at most 100
(including exactly 100) yield nothing. -/
theorem detection_extraction (cs : List Contour) :
    extractDetections cs =
      (cs.filter (fun c => decide (100 < c.area))).map Contour.rect ∧
    (∀ r : Box, extractDetections [⟨100, r⟩] = [] ∧
        extractDetections [⟨101, r⟩] = [r]) := by
  constructor
  · simpa using extractDetections_foldl cs []
  · intro r
    constructor
    · norm_num [extractDetections]
    · norm_num [extractDetections]

/-- The error taxonomy of the pipeline driver (spec section 7), as the
driver in src/Streamlit_App.py realises it: failure to open the
uploaded video (line 93), invalid ROI bounds (lines 105 and 110),
video-writer creation failure (line 130), and the uncaught
`ZeroDivisionError` of the per-frame progress computation (line 175). -/
inductive RunError
  | sourceUnavailable
  | invalidRegion
  | sinkInitFailure
  | zeroDivision
deriving DecidableEq, Repr

/-- The configuration the driver reads before processing: the four ROI
slider bounds, the frame dimensions and reported frame count from the
capture, whether the capture opened, and whether each of the three
`cv2.VideoWriter` sinks reports `isOpened()`. -/
structure RunConfig where
  yStart : Int
  yEnd : Int
  xStart : Int
  xEnd : Int
  width : Int
  height : Int
  sourceOk : Bool
  trackedSinkOk : Bool
  roiSinkOk : Bool
  maskSinkOk : Bool
  frameCount : Nat
deriving DecidableEq, Repr

/-- The externally observable effects of one run: frames written to each
sink, frames processed, and which resources were released. -/
structure RunTrace where
  processedFrames : Nat
  trackedWrites : Nat
  roiWrites : Nat
  maskWrites : Nat
  capReleased : Bool
  trackedReleased : Bool
  roiReleased : Bool
  maskReleased : Bool
deriving DecidableEq, Repr

/-- The trace before anything has happened. -/
def initTrace : RunTrace := ⟨0, 0, 0, 0, false, false, false, false⟩

/-- The per-frame progress computation of line 175,
`min(processed_frames / frame_count, 1.0)` — an exact division with no
zero guard: division by a zero frame count is the `ZeroDivisionError`
case, modelled as `none`. -/
def progressOf (processed count : Nat) : Option ℚ :=
  if count = 0 then none
  else some (min ((processed : ℚ) / (count : ℚ)) 1)

/-- The ROI-validation condition of lines 105 and 110: end not beyond
start, or the rectangle exceeding the frame's dimensions. -/
def badROI (cfg : RunConfig) : Bool :=
  decide (cfg.yEnd ≤ cfg.yStart) || decide (cfg.xEnd ≤ cfg.xStart) ||
    decide (cfg.height < cfg.yEnd) || decide (cfg.width < cfg.xEnd)

/-- The frame loop of lines 142-177: per readable frame, write to the
three sinks (lines 169-171), count the frame (line 174), then compute
the progress (line 175); a zero reported frame count raises
`ZeroDivisionError` there, which the top-level handler answers by
releasing the capture and the three writers (lines 243-247).  When the
source is exhausted, all resources are released (lines 180-183). -/
def loopFrames (frameCount : Nat) : Nat → RunTrace → RunTrace × Except RunError Unit
  | 0, t =>
      ({ t with capReleased := true, trackedReleased := true,
                roiReleased := true, maskReleased := true }, Except.ok ())
  | n + 1, t =>
      let t1 : RunTrace :=
        { t with trackedWrites := t.trackedWrites + 1,
                 roiWrites := t.roiWrites + 1,
                 maskWrites := t.maskWrites + 1,
                 processedFrames := t.processedFrames + 1 }
      match progressOf t1.processedFrames frameCount with
      | none =>
          ({ t1 with capReleased := true, trackedReleased := true,
                     roiReleased := true, maskReleased := true },
            Except.error RunError.zeroDivision)
      | some _ => loopFrames frameCount n t1

/-- The driver of src/Streamlit_App.py lines 92-183, as a function of
the pre-read configuration and of how many frames the capture yields:
source-open check (line 93), the two ROI validations (lines 105 and
110) each releasing only the capture before aborting, writer creation
and the `isOpened` check (line 130) which likewise releases only the
capture — the three already-created writers are not released there —
and then the frame loop. -/
def run (cfg : RunConfig) (numFrames : Nat) : RunTrace × Except RunError Unit :=
  if cfg.sourceOk = false then
    (initTrace, Except.error RunError.sourceUnavailable)
  else if cfg.yEnd ≤ cfg.yStart ∨ cfg.xEnd ≤ cfg.xStart then
    ({ initTrace with capReleased := true }, Except.error RunError.invalidRegion)
  else if cfg.height < cfg.yEnd ∨ cfg.width < cfg.xEnd then
    ({ initTrace with capReleased := true }, Except.error RunError.invalidRegion)
  else if ¬ (cfg.trackedSinkOk = true ∧ cfg.roiSinkOk = true ∧ cfg.maskSinkOk = true) then
    ({ initTrace with capReleased := true }, Except.error RunError.sinkInitFailure)
  else loopFrames cfg.frameCount numFrames initTrace

theorem badROI_iff (cfg : RunConfig) :
    badROI cfg = true ↔
      ((cfg.yEnd ≤ cfg.yStart ∨ cfg.xEnd ≤ cfg.xStart) ∨
        (cfg.height < cfg.yEnd ∨ cfg.width < cfg.xEnd)) := by
  simp [badROI, or_assoc]

theorem loopFrames_no_region_error (fc : Nat) :
    ∀ (n : Nat) (t : RunTrace),
      (loopFrames fc n t).2 = Except.ok () ∨
        (loopFrames fc n t).2 = Except.error RunError.zeroDivision := by
  intro n
  induction n with
  | zero => intro t; exact Or.inl rfl
  | succ n ih =>
      intro t
      rcases hp : progressOf (t.processedFrames + 1) fc with _ | q
      · right
        simp [loopFrames, hp]
      · simpa [loopFrames, hp] using ih _

/-- C7: with the capture opened, the run aborts with the invalid-region
error exactly when `yEnd <= yStart`, or `xEnd <= xStart`, or the ROI
rectangle exceeds the frame's dimensions — the validation happens before
the frame loop — and on a failed validation zero frames are processed
and nothing is written to any sink. -/
theorem roi_validation (cfg : RunConfig) (n : Nat)
    (hsrc : cfg.sourceOk = true) :
    ((run cfg n).2 = Except.error RunError.invalidRegion ↔ badROI cfg = true) ∧
    (badROI cfg = true →
      (run cfg n).1.processedFrames = 0 ∧ (run cfg n).1.trackedWrites = 0 ∧
        (run cfg n).1.roiWrites = 0 ∧ (run cfg n).1.maskWrites = 0) := by
  by_cases h1 : cfg.yEnd ≤ cfg.yStart ∨ cfg.xEnd ≤ cfg.xStart
  · have hbad : badROI cfg = true := (badROI_iff cfg).mpr (Or.inl h1)
    simp [run, hsrc, h1, hbad, initTrace]
  · by_cases h2 : cfg.height < cfg.yEnd ∨ cfg.width < cfg.xEnd
    · have hbad : badROI cfg = true := (badROI_iff cfg).mpr (Or.inr h2)
      simp [run, hsrc, h1, h2, hbad, initTrace]
    · have hbad : badROI cfg = false := by
        rw [Bool.eq_false_iff]
        intro hb
        rcases (badROI_iff cfg).mp hb with hb | hb
        · exact h1 hb
        · exact h2 hb
      refine ⟨?_, ?_⟩
      · rw [hbad]
        simp only [Bool.false_eq_true, iff_false]
        by_cases h3 : cfg.trackedSinkOk = true ∧ cfg.roiSinkOk = true ∧
            cfg.maskSinkOk = true
        · have hrun : (run cfg n).2 = (loopFrames cfg.frameCount n initTrace).2 := by
            simp [run, hsrc, h1, h2, h3]
          rw [hrun]
          rcases loopFrames_no_region_error cfg.frameCount n initTrace with h | h <;>
            simp [h]
        · simp [run, hsrc, h1, h2, h3]
      · intro hb
        rw [hbad] at hb
        cases hb

/-- Witness for C7 at a configuration whose ROI is inverted. -/
theorem roi_validation_witness :
    RunConfig.sourceOk ⟨10, 0, 0, 10, 100, 100, true, true, true, true, 50⟩ = true ∧
    (((run ⟨10, 0, 0, 10, 100, 100, true, true, true, true, 50⟩ 5).2 =
        Except.error RunError.invalidRegion ↔
      badROI ⟨10, 0, 0, 10, 100, 100, true, true, true, true, 50⟩ = true) ∧
     (badROI ⟨10, 0, 0, 10, 100, 100, true, true, true, true, 50⟩ = true →
      (run ⟨10, 0, 0, 10, 100, 100, true, true, true, true, 50⟩ 5).1.processedFrames = 0 ∧
      (run ⟨10, 0, 0, 10, 100, 100, true, true, true, true, 50⟩ 5).1.trackedWrites = 0 ∧
      (run ⟨10, 0, 0, 10, 100, 100, true, true, true, true, 50⟩ 5).1.roiWrites = 0 ∧
      (run ⟨10, 0, 0, 10, 100, 100, true, true, true, true, 50⟩ 5).1.maskWrites = 0)) :=
  ⟨rfl, roi_validation ⟨10, 0, 0, 10, 100, 100, true, true, true, true, 50⟩ 5 rfl⟩

/-- C8 counterexample: the tracked-output writer opened successfully but
the ROI writer did not; the run aborts with the sink-init failure before
any frame, yet the opened tracked writer is not released — lines 130-134
release only the capture — contradicting the claim that every
already-opened sink is released before the abort completes. -/
theorem sink_release_cex :
    RunConfig.trackedSinkOk ⟨0, 10, 0, 10, 100, 100, true, true, false, true, 50⟩ = true ∧
    (run ⟨0, 10, 0, 10, 100, 100, true, true, false, true, 50⟩ 10).2 =
      Except.error RunError.sinkInitFailure ∧
    (run ⟨0, 10, 0, 10, 100, 100, true, true, false, true, 50⟩ 10).1.trackedReleased = false :=
  ⟨rfl, rfl, rfl⟩

/-- C8 (amended): if any of the three output sinks cannot be created,
the run aborts with the sink-init failure before any frame is processed
and before anything is written, releasing the capture — but none of the
already-opened sinks is released in this branch. -/
theorem sink_init_aborts (cfg : RunConfig) (n : Nat)
    (hsrc : cfg.sourceOk = true) (hroi : badROI cfg = false)
    (hsink : ¬ (cfg.trackedSinkOk = true ∧ cfg.roiSinkOk = true ∧
        cfg.maskSinkOk = true)) :
    run cfg n = ({ initTrace with capReleased := true },
      Except.error RunError.sinkInitFailure) ∧
    (run cfg n).1.processedFrames = 0 ∧ (run cfg n).1.trackedWrites = 0 ∧
    (run cfg n).1.trackedReleased = false ∧ (run cfg n).1.roiReleased = false ∧
    (run cfg n).1.maskReleased = false := by
  have hnot : ¬ (((cfg.yEnd ≤ cfg.yStart ∨ cfg.xEnd ≤ cfg.xStart)) ∨
      (cfg.height < cfg.yEnd ∨ cfg.width < cfg.xEnd)) := by
    rw [← badROI_iff]
    simp [hroi]
  have h1 : ¬ (cfg.yEnd ≤ cfg.yStart ∨ cfg.xEnd ≤ cfg.xStart) :=
    fun h => hnot (Or.inl h)
  have h2 : ¬ (cfg.height < cfg.yEnd ∨ cfg.width < cfg.xEnd) :=
    fun h => hnot (Or.inr h)
  refine ⟨?_, ?_, ?_, ?_, ?_, ?_⟩ <;> simp [run, hsrc, h1, h2, hsink, initTrace]

/-- Witness for C8 (amended) at a configuration whose ROI writer fails. -/
theorem sink_init_aborts_witness :
    RunConfig.sourceOk ⟨0, 10, 0, 10, 100, 100, true, true, false, true, 50⟩ = true ∧
    badROI ⟨0, 10, 0, 10, 100, 100, true, true, false, true, 50⟩ = false ∧
    ¬ (RunConfig.trackedSinkOk ⟨0, 10, 0, 10, 100, 100, true, true, false, true, 50⟩ = true ∧
       RunConfig.roiSinkOk ⟨0, 10, 0, 10, 100, 100, true, true, false, true, 50⟩ = true ∧
       RunConfig.maskSinkOk ⟨0, 10, 0, 10, 100, 100, true, true, false, true, 50⟩ = true) ∧
    run ⟨0, 10, 0, 10, 100, 100, true, true, false, true, 50⟩ 10 =
      ({ initTrace with capReleased := true },
        Except.error RunError.sinkInitFailure) := by
  have h := sink_init_aborts ⟨0, 10, 0, 10, 100, 100, true, true, false, true, 50⟩ 10
    rfl (by decide) (by decide)
  exact ⟨rfl, by decide, by decide, h.1⟩

/-- C10: the progress computation is defined exactly when the reported
frame count is at least one; and with a source that reports zero frames
yet yields at least one readable frame, a run that passes all the setup
checks hits the division-by-zero error on the first frame. -/
theorem progress_zero_division (p c : Nat) (cfg : RunConfig) (n : Nat) :
    ((progressOf p c).isSome ↔ 1 ≤ c) ∧
    (cfg.sourceOk = true → badROI cfg = false →
      cfg.trackedSinkOk = true → cfg.roiSinkOk = true → cfg.maskSinkOk = true →
      cfg.frameCount = 0 →
      (run cfg (n + 1)).2 = Except.error RunError.zeroDivision ∧
        (run cfg (n + 1)).1.processedFrames = 1) := by
  constructor
  · by_cases hc : c = 0
    · simp [progressOf, hc]
    · simp [progressOf, hc, Nat.one_le_iff_ne_zero]
  · intro hsrc hroi ht hr hm hfc
    have hnot : ¬ (((cfg.yEnd ≤ cfg.yStart ∨ cfg.xEnd ≤ cfg.xStart)) ∨
        (cfg.height < cfg.yEnd ∨ cfg.width < cfg.xEnd)) := by
      rw [← badROI_iff]
      simp [hroi]
    have h1 : ¬ (cfg.yEnd ≤ cfg.yStart ∨ cfg.xEnd ≤ cfg.xStart) :=
      fun h => hnot (Or.inl h)
    have h2 : ¬ (cfg.height < cfg.yEnd ∨ cfg.width < cfg.xEnd) :=
      fun h => hnot (Or.inr h)
    have hrun : run cfg (n + 1) = loopFrames cfg.frameCount (n + 1) initTrace := by
      simp [run, hsrc, h1, h2, ht, hr, hm]
    rw [hrun, hfc]
    simp [loopFrames, progressOf, initTrace]

/-- Witness for C10: a run whose capture reports zero frames but yields
one readable frame. -/
theorem progress_zero_division_witness :
    ((progressOf 1 2).isSome ↔ 1 ≤ 2) ∧
    RunConfig.sourceOk ⟨0, 10, 0, 10, 100, 100, true, true, true, true, 0⟩ = true ∧
    badROI ⟨0, 10, 0, 10, 100, 100, true, true, true, true, 0⟩ = false ∧
    RunConfig.frameCount ⟨0, 10, 0, 10, 100, 100, true, true, true, true, 0⟩ = 0 ∧
    (run ⟨0, 10, 0, 10, 100, 100, true, true, true, true, 0⟩ 1).2 =
      Except.error RunError.zeroDivision ∧
    (run ⟨0, 10, 0, 10, 100, 100, true, true, true, true, 0⟩ 1).1.processedFrames = 1 := by
  have h := (progress_zero_division 1 2
      ⟨0, 10, 0, 10, 100, 100, true, true, true, true, 0⟩ 0).2
    rfl (by decide) rfl rfl rfl rfl
  exact ⟨(progress_zero_division 1 2
      ⟨0, 10, 0, 10, 100, 100, true, true, true, true, 0⟩ 0).1,
    rfl, by decide, rfl, h.1, h.2⟩

/-- A raw pixel buffer, as a function from (row, column) to intensity. -/
abbrev Image : Type := Int × Int → Nat

/-- `roi = frame[roi_y_start:roi_y_end, roi_x_start:roi_x_end]`
(line 148): the pixel function of the ROI sub-rectangle, in ROI-local
coordinates. -/
def cropROI (yStart xStart : Int) (img : Image) : Image :=
  fun p => img (yStart + p.1, xStart + p.2)

/-- Whether a frame coordinate lies inside the ROI rectangle. -/
def inRegion (yStart yEnd xStart xEnd : Int) (p : Int × Int) : Bool :=
  decide (yStart ≤ p.1) && decide (p.1 < yEnd) &&
    decide (xStart ≤ p.2) && decide (p.2 < xEnd)

/-- NumPy basic slicing yields a view, so drawing on `roi`
(lines 165-166) mutates `frame` in place: the frame after the drawing
equals the original frame with the drawn patch written back over the
ROI rectangle. -/
def writeBack (yStart yEnd xStart xEnd : Int) (base patch : Image) : Image :=
  fun p =>
    if inRegion yStart yEnd xStart xEnd p = true
    then patch (p.1 - yStart, p.2 - xStart)
    else base p

/-- Lines 148-171 for one frame: crop the ROI view of the frame, apply
the id/box drawing — `cv2.putText` and `cv2.rectangle`, external
collaborators modelled as an arbitrary image transformation `annotate`
of the ROI — and return the buffers handed to the full-frame sink
(`tracked_out.write(frame)`, line 169) and to the ROI sink
(`roi_out.write(roi)`, line 170). -/
def frameOutputs (yStart yEnd xStart xEnd : Int) (annotate : Image → Image)
    (frame : Image) : Image × Image :=
  let patch := annotate (cropROI yStart xStart frame)
  (writeBack yStart yEnd xStart xEnd frame patch, patch)

/-- C9 counterexample: a drawing that changes a pixel — as the id label
and box drawing do whenever a tracked box exists — makes the full-frame
sink's buffer differ from the input frame at an in-ROI pixel, because
the ROI is a view into the frame; so the full-frame sink does not
receive the original frame unchanged. -/
theorem full_frame_cex :
    inRegion 0 2 0 2 (0, 0) = true ∧
    (frameOutputs 0 2 0 2 (fun img q => img q + 1) (fun _ => 0)).1 (0, 0) ≠
      (fun _ => (0 : Nat) : Image) (0, 0) := by
  constructor
  · decide
  · intro h
    simp [frameOutputs, writeBack, cropROI, inRegion] at h

/-- C9 (amended): for every processed frame, the buffer written to the
full-frame sink carries the annotated ROI pixels inside the ROI
rectangle — it agrees there with the ROI sink's buffer at the shifted
coordinates, not with the input frame — and the original input pixels
outside it. -/
theorem full_frame_roi_pixels (yStart yEnd xStart xEnd : Int)
    (annotate : Image → Image) (frame : Image) (p : Int × Int) :
    (inRegion yStart yEnd xStart xEnd p = true →
      (frameOutputs yStart yEnd xStart xEnd annotate frame).1 p =
        (frameOutputs yStart yEnd xStart xEnd annotate frame).2
          (p.1 - yStart, p.2 - xStart)) ∧
    (inRegion yStart yEnd xStart xEnd p = false →
      (frameOutputs yStart yEnd xStart xEnd annotate frame).1 p = frame p) := by
  constructor <;> intro h <;> simp [frameOutputs, writeBack, h]

/-- Witness for C9 (amended) at an in-ROI pixel of a concrete frame. -/
theorem full_frame_roi_pixels_witness :
    inRegion 0 2 0 2 (1, 1) = true ∧
    (frameOutputs 0 2 0 2 (fun img q => img q + 1) (fun _ => 0)).1 (1, 1) =
      (frameOutputs 0 2 0 2 (fun img q => img q + 1) (fun _ => 0)).2
        ((1 : Int) - 0, (1 : Int) - 0) :=
  ⟨by decide,
    (full_frame_roi_pixels 0 2 0 2 (fun img q => img q + 1) (fun _ => 0)
      (1, 1)).1 (by decide)⟩
